import Mathlib

/-!
Verification of the news-feed ingestion pipeline (`News_feed.py`, class
`NewsScraper`).  The Python source is shallowly embedded: pure string
processing is translated character by character, timestamps are integers
(microseconds, the resolution of Python `datetime`), and the external
collaborators (the `dateutil` flexible parser, `datetime.strptime`, the
language detector) are passed in as explicit oracle functions, since the
Python code only ever observes their success-or-failure result.
-/

namespace NewsFeed

/-- ASCII letter, the regex character class `[A-Za-z]`. -/
def isAsciiLetter (c : Char) : Bool :=
  (decide ('A' ≤ c) && decide (c ≤ 'Z')) || (decide ('a' ≤ c) && decide (c ≤ 'z'))

/-- Whitespace as recognized by Python `str.split()` / `str.strip()` and the
regex class `\s`, restricted to the ASCII range the feed data uses. -/
def isPyWs (c : Char) : Bool :=
  decide (c = ' ') || decide (c = '\t') || decide (c = '\n') || decide (c = '\r') ||
    decide (c = '\x0b') || decide (c = '\x0c')

/-- Word character for the regex word boundary `\b`: `[A-Za-z0-9_]`. -/
def isWordChar (c : Char) : Bool :=
  isAsciiLetter c || c.isDigit || decide (c = '_')

/-- Python `str.strip()`: drop leading and trailing whitespace. -/
def pyStrip (cs : List Char) : List Char :=
  ((cs.dropWhile isPyWs).reverse.dropWhile isPyWs).reverse

/-- `str.strip()` on `String`. -/
def pyStripS (s : String) : String := ⟨pyStrip s.data⟩

/-- The substitution `re.sub(r'^[A-Za-z]{2,9},\s*', '', date_str)` from
`NewsScraper.clean_date_string`.  The regex matches exactly when the leading
run of ASCII letters has length 2 to 9 and is followed immediately by a
comma (for a longer or shorter run no backtracking choice of
`[A-Za-z]{2,9}` places the comma right after the letters); the match also
swallows the whitespace after the comma. -/
def stripWeekday (cs : List Char) : List Char :=
  match cs.dropWhile isAsciiLetter with
  | c :: after =>
      if c = ',' ∧ 2 ≤ (cs.takeWhile isAsciiLetter).length ∧
          (cs.takeWhile isAsciiLetter).length ≤ 9 then
        after.dropWhile isPyWs
      else cs
  | [] => cs

/-- The eight timezone abbreviations of `clean_date_string`:
EST, EDT, CST, CDT, MST, MDT, PST, PDT. -/
def tzTokens : List (List Char) :=
  [['E', 'S', 'T'], ['E', 'D', 'T'], ['C', 'S', 'T'], ['C', 'D', 'T'],
   ['M', 'S', 'T'], ['M', 'D', 'T'], ['P', 'S', 'T'], ['P', 'D', 'T']]

/-- Test whether three characters form one of the eight timezone
abbreviations; they are exactly the strings {E,C,M,P} × {S,D} × {T}. -/
def isTzTriple (c1 c2 c3 : Char) : Bool :=
  (decide (c1 = 'E') || decide (c1 = 'C') || decide (c1 = 'M') || decide (c1 = 'P')) &&
    (decide (c2 = 'S') || decide (c2 = 'D')) && decide (c3 = 'T')

/-- The `\b` boundary after a candidate timezone token: end of string or a
non-word character. -/
def tzAfterOk : List Char → Bool
  | [] => true
  | d :: _ => !isWordChar d

/-- The substitution `re.sub(r'\b(?:EST|EDT|CST|CDT|MST|MDT|PST|PDT)\b', '', date_str)`:
a left-to-right, non-overlapping scan.  `prevWord` records whether the
character just before the current position in the original string is a word
character (`false` at the start of the string); the `\b` before a token
requires it to be false, the `\b` after requires the next character to be
non-word or absent.  After a removed token the previous character is the
token's final `'T'`, a word character, hence the recursive call with `true`. -/
def removeTzAux : Bool → List Char → List Char
  | _, [] => []
  | prevWord, c1 :: c2 :: c3 :: rest =>
      if !prevWord && isTzTriple c1 c2 c3 && tzAfterOk rest then
        removeTzAux true rest
      else
        c1 :: removeTzAux (isWordChar c1) (c2 :: c3 :: rest)
  | _, c1 :: rest => c1 :: removeTzAux (isWordChar c1) rest

/-- The timezone-abbreviation removal pass of `clean_date_string`. -/
def removeTz (cs : List Char) : List Char := removeTzAux false cs

/-- Python `str.split()` with no argument: split on runs of whitespace,
discarding empty pieces.  `acc` holds the current word, reversed. -/
def pySplitAux : List Char → List Char → List (List Char)
  | [], acc => if acc.isEmpty then [] else [acc.reverse]
  | c :: cs, acc =>
      if isPyWs c then
        if acc.isEmpty then pySplitAux cs [] else acc.reverse :: pySplitAux cs []
      else pySplitAux cs (c :: acc)

/-- Python `date_str.split()`. -/
def pySplit (cs : List Char) : List (List Char) := pySplitAux cs []

/-- Python `' '.join(pieces)`. -/
def joinSpace (ws : List (List Char)) : List Char := List.intercalate [' '] ws

/-- `NewsScraper.clean_date_string`: `None` for the empty string (Python
`if not date_str: return None`); otherwise strip a leading weekday-style
token, strip standalone timezone abbreviations, collapse whitespace via
`' '.join(date_str.split())`, and `strip()` the result. -/
def clean_date_string (s : String) : Option String :=
  if s = "" then none
  else some ⟨pyStrip (joinSpace (pySplit (removeTz (stripWeekday s.data))))⟩

/-- A parsed Python `datetime`, as far as `calculate_duration` observes it:
`stamp` is the timestamp in microseconds in the datetime's own
representation (absolute when offset-aware, local-naive otherwise), and
`aware` records whether `tzinfo` is not `None`. -/
structure PyDatetime where
  stamp : Int
  aware : Bool
deriving DecidableEq, Repr

/-- Microseconds per day; `timedelta.days` is the floor of the difference
divided by this. -/
def pyDay : Int := 86400000000

/-- The `date_formats` list of `calculate_duration`, in source order. -/
def date_formats : List String :=
  ["%a, %d %b %Y %H:%M:%S %z",
   "%a, %d %b %Y %H:%M:%S %Z",
   "%Y-%m-%dT%H:%M:%S%z",
   "%Y-%m-%d %H:%M:%S",
   "%d %b %Y %H:%M:%S",
   "%a, %d %b %Y %H:%M:%S",
   "%Y-%m-%d",
   "%b %d, %Y %H:%M:%S",
   "%d-%m-%Y %H:%M:%S",
   "%m/%d/%Y %H:%M:%S",
   "%Y%m%d"]

/-- The manual-format loop of `calculate_duration`: try `strptime` with each
format in order, stopping at the first success (`break`), treating a
`ValueError` as failure (`continue`). -/
def tryFormats (strptime : String → String → Option PyDatetime) (s : String) :
    List String → Option PyDatetime
  | [] => none
  | f :: fs =>
      match strptime f s with
      | some d => some d
      | none => tryFormats strptime s fs

/-- The parse phase of `calculate_duration`: first `dateutil.parser.parse`
(any exception swallowed), then the manual formats in order. -/
def parseDate (dateutil : String → Option PyDatetime)
    (strptime : String → String → Option PyDatetime) (s : String) : Option PyDatetime :=
  match dateutil s with
  | some d => some d
  | none => tryFormats strptime s date_formats

/-- The bucketing if-chain of `calculate_duration`, applied to `delta.days`. -/
def bucketOf (days : Int) : String :=
  if days = 0 then "Today"
  else if days ≤ 7 then "This Week"
  else if days ≤ 30 then "This Month"
  else if days ≤ 365 then "1 Year Ago"
  else if days ≤ 730 then "2 Years Ago"
  else "Older"

/-- `NewsScraper.calculate_duration`.  `nowAware` is `datetime.now(tz)` as an
absolute instant (used when the parsed datetime carries a tzinfo, matching
`datetime.now(pub_date.tzinfo)`), `nowNaive` is the local naive clock
`datetime.now()`; in either case both operands of the subtraction share one
representation, so `delta.days` is the floor of their difference in days. -/
def calculate_duration (dateutil : String → Option PyDatetime)
    (strptime : String → String → Option PyDatetime)
    (nowAware nowNaive : Int) (published_date : String) : String :=
  if published_date = "" then "Unknown"
  else
    match clean_date_string published_date with
    | none => "Unknown"
    | some cleaned =>
        if cleaned = "" then "Unknown"
        else
          match parseDate dateutil strptime cleaned with
          | none => "Unknown"
          | some d =>
              bucketOf (Int.fdiv ((if d.aware then nowAware else nowNaive) - d.stamp) pyDay)

/-- Modelled from the spec: the tag removal of
`BeautifulSoup(summary, "html.parser").get_text(separator=" ", strip=True)`
(an external library).  Text outside `<...>` regions forms the text
segments; an unterminated tag yields no further text.  `inTag` is the
scanner state, `acc` the current text segment, reversed. -/
def textSegsAux : Bool → List Char → List Char → List (List Char)
  | false, acc, [] => [acc.reverse]
  | false, acc, c :: cs =>
      if c = '<' then acc.reverse :: textSegsAux true [] cs
      else textSegsAux false (c :: acc) cs
  | true, _, [] => []
  | true, _, c :: cs =>
      if c = '>' then textSegsAux false [] cs else textSegsAux true [] cs

/-- `soup.get_text(separator=" ", strip=True)`: each text segment is
stripped, empty segments are dropped, and the rest are joined with a single
space. -/
def getTextSepStrip (cs : List Char) : List Char :=
  joinSpace (((textSegsAux false [] cs).map pyStrip).filter (fun w => !w.isEmpty))

/-- Modelled from the spec: `html.unescape` (an external library function),
restricted to the named/numeric entities relevant to news summaries; each
entity is decoded once, left to right, and all other text passes through
unchanged.  The fuel argument (initially the length of the list) makes the
recursion structural; at least one character is consumed per step. -/
def unescapeFuel : Nat → List Char → List Char
  | 0, cs => cs
  | _ + 1, [] => []
  | n + 1, c :: rest =>
      if c = '&' then
        match rest with
        | 'a' :: 'm' :: 'p' :: ';' :: r => '&' :: unescapeFuel n r
        | 'l' :: 't' :: ';' :: r => '<' :: unescapeFuel n r
        | 'g' :: 't' :: ';' :: r => '>' :: unescapeFuel n r
        | 'q' :: 'u' :: 'o' :: 't' :: ';' :: r => '"' :: unescapeFuel n r
        | 'a' :: 'p' :: 'o' :: 's' :: ';' :: r => '\'' :: unescapeFuel n r
        | '#' :: '3' :: '9' :: ';' :: r => '\'' :: unescapeFuel n r
        | 'n' :: 'b' :: 's' :: 'p' :: ';' :: r => '\xA0' :: unescapeFuel n r
        | _ => '&' :: unescapeFuel n rest
      else c :: unescapeFuel n rest

/-- `html.unescape` on a character list. -/
def unescape (cs : List Char) : List Char := unescapeFuel cs.length cs

/-- `NewsScraper.clean_summary`: `html.unescape(BeautifulSoup(summary,
"html.parser").get_text(separator=" ", strip=True))`. -/
def clean_summary (s : String) : String := ⟨unescape (getTextSepStrip s.data)⟩

/-- One feed configuration entry: `{"country": ..., "source": ..., "url": ...}`. -/
structure FeedSource where
  country : String
  source : String
  url : String
deriving DecidableEq, Repr

/-- A `<link>` tag as `parse_feed` observes it: an optional `href`
attribute and the element text. -/
structure LinkTag where
  href : Option String
  text : String
deriving DecidableEq, Repr

/-- One feed item as `parse_feed` observes it after the `find` calls:
`title` is the text of the title tag when present, `summaryText` the text of
the first of description/summary/content, `pubDateText` the text of the
first of pubDate/updated/date, `link` the link tag. -/
structure RawItem where
  title : Option String
  summaryText : Option String
  pubDateText : Option String
  link : Option LinkTag
deriving DecidableEq, Repr

/-- `title = title_tag.text.strip() if title_tag else ""`. -/
def itemTitle (item : RawItem) : String :=
  match item.title with
  | some t => pyStripS t
  | none => ""

/-- `link = link_tag["href"] if link_tag and link_tag.has_attr("href") else
link_tag.text.strip() if link_tag else ""`. -/
def itemLink (item : RawItem) : String :=
  match item.link with
  | some tag =>
      match tag.href with
      | some h => h
      | none => pyStripS tag.text
  | none => ""

/-- `summary = self.clean_summary(summary_tag.text) if summary_tag else ""`. -/
def itemSummary (item : RawItem) : String :=
  match item.summaryText with
  | some t => clean_summary t
  | none => ""

/-- `published = pub_date_tag.text.strip() if pub_date_tag else ""`. -/
def itemPublished (item : RawItem) : String :=
  match item.pubDateText with
  | some t => pyStripS t
  | none => ""

/-- One record of the batch, the dictionary appended by `parse_feed`. -/
structure Entry where
  Title : String
  Summary : String
  Published : String
  Link : String
  Source : String
  Country : String
  Language : String
  Duration : String
deriving DecidableEq, Repr

/-- The per-item body of the `parse_feed` loop: extract the fields, compute
the duration and the language (the `langdetect.detect` call is the `detect`
oracle, any exception or empty text degrading to "unknown"), and append an
entry exactly when `if title and link:` holds, i.e. both strings are
non-empty. -/
def parse_item (dateutil : String → Option PyDatetime)
    (strptime : String → String → Option PyDatetime)
    (nowAware nowNaive : Int) (detect : String → Option String)
    (feed : FeedSource) (item : RawItem) : Option Entry :=
  let link := itemLink item
  let title := itemTitle item
  let summary := itemSummary item
  let published := itemPublished item
  let duration := calculate_duration dateutil strptime nowAware nowNaive published
  let textForLang := pyStripS (title ++ " " ++ summary)
  let language := if textForLang = "" then "unknown" else (detect textForLang).getD "unknown"
  if title ≠ "" ∧ link ≠ "" then
    some { Title := title, Summary := summary, Published := published, Link := link,
           Source := feed.source, Country := feed.country, Language := language,
           Duration := duration }
  else none

/-- The duplicate key of `drop_duplicates(subset=["Title", "Link"])`. -/
def entryKey (e : Entry) : String × String := (e.Title, e.Link)

/-- Keep-first deduplication on the (Title, Link) key: `seen` is the set of
keys already kept.  This is the row selection performed by pandas
`drop_duplicates` (keep="first", the default). -/
def dedupAux (seen : List (String × String)) : List Entry → List Entry
  | [] => []
  | e :: es =>
      if entryKey e ∈ seen then dedupAux seen es
      else e :: dedupAux (entryKey e :: seen) es

/-- Deduplication of a batch, first occurrence winning. -/
def dedupKeepFirst (es : List Entry) : List Entry := dedupAux [] es

/-- A pandas DataFrame as the pipeline observes it: its records, and
whether the entry columns (Title, Link, Country, ...) exist.
`pd.DataFrame(entries)` takes its columns from the dictionary keys, so a
frame built from zero records has no columns at all. -/
structure DataFrame where
  hasEntryColumns : Bool
  records : List Entry
deriving DecidableEq, Repr

/-- `pd.DataFrame(entries)`. -/
def mkDataFrame (rs : List Entry) : DataFrame := ⟨!rs.isEmpty, rs⟩

/-- `NewsScraper.remove_duplicates`:
`pd.DataFrame(entries).drop_duplicates(subset=["Title", "Link"])`.
pandas `drop_duplicates` keeps the first occurrence of each key and
preserves row order.  On the empty frame it early-returns the frame
unchanged before any subset validation, so the empty batch deduplicates to
the empty batch (and the resulting frame still has no columns). -/
def remove_duplicates (entries : List Entry) : DataFrame :=
  let df := mkDataFrame entries
  ⟨df.hasEntryColumns, dedupKeepFirst df.records⟩

/-- One step of building `country_counts` in `_store_in_db`:
`country_counts[country] = country_counts.get(country, 0) + 1` on an
insertion-ordered dictionary. -/
def incrCount : List (String × Nat) → String → List (String × Nat)
  | [], c => [(c, 1)]
  | (k, n) :: rest, c =>
      if k = c then (k, n + 1) :: rest else (k, n) :: incrCount rest c

/-- The `country_counts` dictionary of `_store_in_db`, built by folding
over the entries. -/
def buildCounts (entries : List Entry) : List (String × Nat) :=
  entries.foldl (fun acc e => incrCount acc e.Country) []

/-- Dictionary lookup with default 0 (`country_counts[entry["Country"]]`
always hits an existing key after the counting pass). -/
def getCount : List (String × Nat) → String → Nat
  | [], _ => 0
  | p :: m, c => if p.1 = c then p.2 else getCount m c

/-- One row as inserted by `_store_in_db`. -/
structure DbRow where
  Title : String
  Summary : String
  Published : String
  Link : String
  Source : String
  Country : String
  Language : String
  NoofArticles : Nat
  Duration : String
deriving DecidableEq, Repr

/-- `NewsScraper._store_in_db`: count articles per country over the given
entries, then insert each entry with its country's total.  Per-entry sqlite
errors are caught and logged, so the function itself always completes; the
value returned is the sequence of rows handed to `INSERT OR IGNORE`. -/
def store_in_db (entries : List Entry) : List DbRow :=
  let counts := buildCounts entries
  entries.map (fun e =>
    { Title := e.Title, Summary := e.Summary, Published := e.Published, Link := e.Link,
      Source := e.Source, Country := e.Country, Language := e.Language,
      NoofArticles := getCount counts e.Country, Duration := e.Duration })

/-- `NewsScraper.save_to_csv`: `df['Country'].value_counts()` then
`df['Country'].map(...)`; column access on a frame without the Country
column (the empty frame) raises a `KeyError`.  The result is the per-row
(entry, NoOfArticles) data written to the CSV. -/
def save_to_csv (df : DataFrame) : Except String (List (Entry × Nat)) :=
  if df.hasEntryColumns then
    Except.ok (df.records.map (fun e =>
      (e, df.records.countP (fun x => decide (x.Country = e.Country)))))
  else Except.error "KeyError: Country"

/-- `NewsScraper.run`.  `feedResults` abstracts `scrape_all_feeds`: the
per-feed entry lists, where a failed fetch or an unparsable document
contributes `[]` (parse_feed returns its empty `entries` list in both
cases).  The run deduplicates, stores (printing the stored count), and
writes the CSV; the returned value is the reported count when every step
completes, and the error of the first step that raises otherwise. -/
def run (feedResults : List (List Entry)) : Except String Nat :=
  let entries := feedResults.flatten
  let df := remove_duplicates entries
  let _rows := store_in_db df.records
  match save_to_csv df with
  | Except.error e => Except.error e
  | Except.ok _ => Except.ok df.records.length

/-- An entry with the fields the deduplication and counting claims care
about; the remaining fields are fixed. -/
def mkEntry (t l src ctry : String) : Entry :=
  { Title := t, Summary := "", Published := "", Link := l,
    Source := src, Country := ctry, Language := "en", Duration := "Unknown" }

theorem bucketOf_today {d : Int} (h : d = 0) : bucketOf d = "Today" := by
  simp [bucketOf, h]

theorem bucketOf_week {d : Int} (h1 : 1 ≤ d) (h2 : d ≤ 7) : bucketOf d = "This Week" := by
  rw [bucketOf, if_neg (by omega), if_pos h2]

theorem bucketOf_month {d : Int} (h1 : 8 ≤ d) (h2 : d ≤ 30) : bucketOf d = "This Month" := by
  rw [bucketOf, if_neg (by omega), if_neg (by omega), if_pos h2]

theorem bucketOf_year {d : Int} (h1 : 31 ≤ d) (h2 : d ≤ 365) : bucketOf d = "1 Year Ago" := by
  rw [bucketOf, if_neg (by omega), if_neg (by omega), if_neg (by omega), if_pos h2]

theorem bucketOf_twoYears {d : Int} (h1 : 366 ≤ d) (h2 : d ≤ 730) :
    bucketOf d = "2 Years Ago" := by
  rw [bucketOf, if_neg (by omega), if_neg (by omega), if_neg (by omega), if_neg (by omega),
    if_pos h2]

theorem bucketOf_older {d : Int} (h : 730 < d) : bucketOf d = "Older" := by
  rw [bucketOf, if_neg (by omega), if_neg (by omega), if_neg (by omega), if_neg (by omega),
    if_neg (by omega)]

theorem bucketOf_negative {d : Int} (h : d < 0) : bucketOf d = "This Week" := by
  rw [bucketOf, if_neg (by omega), if_pos (by omega)]

theorem bucketOf_mem (d : Int) :
    bucketOf d ∈ ["Today", "This Week", "This Month", "1 Year Ago", "2 Years Ago", "Older",
      "Unknown"] := by
  rw [bucketOf]
  split
  · decide
  split
  · decide
  split
  · decide
  split
  · decide
  split
  · decide
  · decide

/-- When the input is non-empty, cleans to a non-empty string and that
string parses, `calculate_duration` is the bucketing of the floored day
difference, with "now" chosen by the parsed datetime's awareness. -/
theorem calculate_duration_eq_bucket (dateutil : String → Option PyDatetime)
    (strptime : String → String → Option PyDatetime) (nowAware nowNaive : Int)
    {s c : String} {d : PyDatetime}
    (hc : clean_date_string s = some c) (hne : c ≠ "")
    (hp : parseDate dateutil strptime c = some d) :
    calculate_duration dateutil strptime nowAware nowNaive s =
      bucketOf (Int.fdiv ((if d.aware then nowAware else nowNaive) - d.stamp) pyDay) := by
  have hs : s ≠ "" := by
    intro h
    rw [h] at hc
    simp [clean_date_string] at hc
  rw [calculate_duration, if_neg hs, hc]
  simp only [if_neg hne, hp]

/-- C1: the date normalizer `calculate_duration` is total over all string
inputs: whatever the parse oracles (`dateutil.parser.parse` and
`datetime.strptime`) and the clock do, the result is one of the seven
labels Today, This Week, This Month, 1 Year Ago, 2 Years Ago, Older,
Unknown, and the empty input yields Unknown.  Totality (never raises) is
expressed by `calculate_duration` being a total Lean function over every
`String`. -/
theorem calculate_duration_total (dateutil : String → Option PyDatetime)
    (strptime : String → String → Option PyDatetime)
    (nowAware nowNaive : Int) (s : String) :
    calculate_duration dateutil strptime nowAware nowNaive s ∈
      ["Today", "This Week", "This Month", "1 Year Ago", "2 Years Ago", "Older", "Unknown"] ∧
    calculate_duration dateutil strptime nowAware nowNaive "" = "Unknown" := by
  refine ⟨?_, rfl⟩
  rw [calculate_duration]
  split
  · decide
  split
  · decide
  split
  · decide
  split
  · decide
  · exact bucketOf_mem _

/-- C3: for every raw date string that parses successfully, the recency
bucket is determined by the whole elapsed days d, the floor of
(now − parsed timestamp) in days, where now is the aware clock when an
offset was recovered and the local naive clock otherwise; d = 0 gives
Today, 1–7 This Week, 8–30 This Month, 31–365 1 Year Ago, 366–730
2 Years Ago, and above 730 Older. -/
theorem calculate_duration_bucket_mapping (dateutil : String → Option PyDatetime)
    (strptime : String → String → Option PyDatetime) (nowAware nowNaive : Int)
    (s c : String) (d : PyDatetime)
    (hc : clean_date_string s = some c) (hne : c ≠ "")
    (hp : parseDate dateutil strptime c = some d) :
    calculate_duration dateutil strptime nowAware nowNaive s =
      bucketOf (Int.fdiv ((if d.aware then nowAware else nowNaive) - d.stamp) pyDay) ∧
    ∀ e : Int,
      (e = 0 → bucketOf e = "Today") ∧
      (1 ≤ e ∧ e ≤ 7 → bucketOf e = "This Week") ∧
      (8 ≤ e ∧ e ≤ 30 → bucketOf e = "This Month") ∧
      (31 ≤ e ∧ e ≤ 365 → bucketOf e = "1 Year Ago") ∧
      (366 ≤ e ∧ e ≤ 730 → bucketOf e = "2 Years Ago") ∧
      (730 < e → bucketOf e = "Older") := by
  refine ⟨calculate_duration_eq_bucket dateutil strptime nowAware nowNaive hc hne hp, ?_⟩
  intro e
  exact ⟨bucketOf_today, fun h => bucketOf_week h.1 h.2, fun h => bucketOf_month h.1 h.2,
    fun h => bucketOf_year h.1 h.2, fun h => bucketOf_twoYears h.1 h.2, bucketOf_older⟩

/-- Witness for C3, the spec's own example: "2022-01-01" parsed (naively)
884 whole days before the evaluation instant is bucketed as "Older". -/
theorem calculate_duration_bucket_mapping_applied :
    calculate_duration (fun _ => some ⟨0, false⟩) (fun _ _ => none) 0 (884 * pyDay)
      "2022-01-01" = "Older" := by
  have h := calculate_duration_bucket_mapping (fun _ => some ⟨0, false⟩) (fun _ _ => none)
    0 (884 * pyDay) "2022-01-01" "2022-01-01" ⟨0, false⟩ (by decide) (by decide) rfl
  rw [h.1]
  exact (h.2 _).2.2.2.2.2 (by decide)

/-- C10: a raw date string whose parsed timestamp lies strictly in the
future, so that the floored day count is negative, is bucketed as
"This Week" — never "Today" — because the if-chain has no floor at zero and
every negative day count passes the ≤ 7 test after failing the = 0 test. -/
theorem calculate_duration_future_dates (dateutil : String → Option PyDatetime)
    (strptime : String → String → Option PyDatetime) (nowAware nowNaive : Int)
    (s c : String) (d : PyDatetime)
    (hc : clean_date_string s = some c) (hne : c ≠ "")
    (hp : parseDate dateutil strptime c = some d)
    (hneg : Int.fdiv ((if d.aware then nowAware else nowNaive) - d.stamp) pyDay < 0) :
    calculate_duration dateutil strptime nowAware nowNaive s = "This Week" ∧
    calculate_duration dateutil strptime nowAware nowNaive s ≠ "Today" := by
  have h := calculate_duration_eq_bucket dateutil strptime nowAware nowNaive hc hne hp
  rw [h, bucketOf_negative hneg]
  exact ⟨rfl, by decide⟩

/-- Witness for C10: an article dated ten days into the future is labelled
"This Week". -/
theorem calculate_duration_future_dates_applied :
    calculate_duration (fun _ => some ⟨10 * pyDay, false⟩) (fun _ _ => none) 0 0
      "2999-01-01" = "This Week" :=
  (calculate_duration_future_dates (fun _ => some ⟨10 * pyDay, false⟩) (fun _ _ => none) 0 0
    "2999-01-01" "2999-01-01" ⟨10 * pyDay, false⟩ (by decide) (by decide) rfl (by decide)).1

/-- C9: parsing first tries the general flexible parser (`dateutil`); a
success there is the result, with every explicit pattern untried.  Only on
failure are the explicit patterns tried, and they are tried in the fixed
source order, stopping at the first that succeeds no matter what the
remaining patterns would do.  The fourth conjunct pins `date_formats` to
the eleven patterns in the order the claim lists: RFC-2822 with numeric
offset, RFC-2822 with named zone, ISO-8601 with offset,
"YYYY-MM-DD HH:MM:SS", "DD Mon YYYY HH:MM:SS", RFC-2822 without zone, bare
"YYYY-MM-DD", "Mon DD, YYYY HH:MM:SS", "DD-MM-YYYY HH:MM:SS",
"MM/DD/YYYY HH:MM:SS", compact "YYYYMMDD". -/
theorem parse_order_spec :
    (∀ (dateutil : String → Option PyDatetime)
        (strptime : String → String → Option PyDatetime) (s : String) (d : PyDatetime),
        dateutil s = some d → parseDate dateutil strptime s = some d) ∧
    (∀ (dateutil : String → Option PyDatetime)
        (strptime : String → String → Option PyDatetime) (s : String),
        dateutil s = none → parseDate dateutil strptime s = tryFormats strptime s date_formats) ∧
    (∀ (strptime : String → String → Option PyDatetime) (s : String)
        (fs1 : List String) (f : String) (fs2 : List String) (d : PyDatetime),
        (∀ g ∈ fs1, strptime g s = none) → strptime f s = some d →
        tryFormats strptime s (fs1 ++ f :: fs2) = some d) ∧
    date_formats =
      ["%a, %d %b %Y %H:%M:%S %z", "%a, %d %b %Y %H:%M:%S %Z", "%Y-%m-%dT%H:%M:%S%z",
       "%Y-%m-%d %H:%M:%S", "%d %b %Y %H:%M:%S", "%a, %d %b %Y %H:%M:%S", "%Y-%m-%d",
       "%b %d, %Y %H:%M:%S", "%d-%m-%Y %H:%M:%S", "%m/%d/%Y %H:%M:%S", "%Y%m%d"] := by
  refine ⟨?_, ?_, ?_, rfl⟩
  · intro dateutil strptime s d h
    simp [parseDate, h]
  · intro dateutil strptime s h
    simp [parseDate, h]
  · intro strptime s fs1 f fs2 d hnone hf
    induction fs1 with
    | nil => simp [tryFormats, hf]
    | cons g gs ih =>
        have hg : strptime g s = none := hnone g (List.mem_cons_self g gs)
        simp only [List.cons_append, tryFormats, hg]
        exact ih (fun x hx => hnone x (List.mem_cons_of_mem g hx))

/-- Witness for C9: with a failing flexible parser and a strptime oracle
that succeeds only on the bare date pattern, the seventh pattern wins. -/
theorem parse_order_spec_applied :
    parseDate (fun _ => none)
      (fun f _ => if f = "%Y-%m-%d" then some ⟨0, false⟩ else none)
      "2024-06-03" = some ⟨0, false⟩ := by
  have h2 := parse_order_spec.2.1 (fun _ => none)
    (fun f _ => if f = "%Y-%m-%d" then some ⟨0, false⟩ else none) "2024-06-03" rfl
  have h3 := parse_order_spec.2.2.1
    (fun f _ => if f = "%Y-%m-%d" then some ⟨0, false⟩ else none) "2024-06-03"
    ["%a, %d %b %Y %H:%M:%S %z", "%a, %d %b %Y %H:%M:%S %Z", "%Y-%m-%dT%H:%M:%S%z",
     "%Y-%m-%d %H:%M:%S", "%d %b %Y %H:%M:%S", "%a, %d %b %Y %H:%M:%S"]
    "%Y-%m-%d"
    ["%b %d, %Y %H:%M:%S", "%d-%m-%Y %H:%M:%S", "%m/%d/%Y %H:%M:%S", "%Y%m%d"]
    ⟨0, false⟩ (by decide) (by decide)
  rw [h2]
  exact h3

/-- C4: an entry is appended to the batch if and only if both the extracted
title and the extracted link are non-empty; an item with empty title and a
non-empty link is excluded entirely, and missing summary and published
fields do not cause exclusion. -/
theorem parse_item_requires_title_and_link (dateutil : String → Option PyDatetime)
    (strptime : String → String → Option PyDatetime) (nowAware nowNaive : Int)
    (detect : String → Option String) (feed : FeedSource) (item : RawItem) :
    ((parse_item dateutil strptime nowAware nowNaive detect feed item).isSome ↔
      (itemTitle item ≠ "" ∧ itemLink item ≠ "")) ∧
    parse_item dateutil strptime nowAware nowNaive detect feed
      { title := some "", summaryText := some "s", pubDateText := some "d",
        link := some { href := some "http://a", text := "" } } = none ∧
    (parse_item dateutil strptime nowAware nowNaive detect feed
      { title := some "T", summaryText := none, pubDateText := none,
        link := some { href := some "http://a", text := "" } }).isSome = true := by
  refine ⟨?_, ?_, ?_⟩
  · rw [parse_item]
    by_cases h : itemTitle item ≠ "" ∧ itemLink item ≠ ""
    · simp only [if_pos h, Option.isSome_some]
      simp [h]
    · simp only [if_neg h, Option.isSome_none]
      simp [h]
  · rw [parse_item]
    rw [if_neg]
    intro h
    exact h.1 rfl
  · rw [parse_item]
    rw [if_pos]
    · rfl
    · exact ⟨by decide, by decide⟩

theorem dedupAux_sublist (es : List Entry) : ∀ seen, (dedupAux seen es).Sublist es := by
  induction es with
  | nil => intro seen; simp [dedupAux]
  | cons e es ih =>
      intro seen
      by_cases h : entryKey e ∈ seen
      · rw [dedupAux, if_pos h]
        exact (ih seen).cons e
      · rw [dedupAux, if_neg h]
        exact (ih _).cons₂ e

theorem dedupAux_filter_seen (es : List Entry) : ∀ seen k, k ∈ seen →
    (dedupAux seen es).filter (fun e => decide (entryKey e = k)) = [] := by
  induction es with
  | nil => intro seen k _; simp [dedupAux]
  | cons e es ih =>
      intro seen k hk
      by_cases h : entryKey e ∈ seen
      · rw [dedupAux, if_pos h]
        exact ih seen k hk
      · rw [dedupAux, if_neg h]
        have hne : ¬ entryKey e = k := fun heq => h (heq ▸ hk)
        rw [List.filter_cons_of_neg (by simpa using hne)]
        exact ih _ k (List.mem_cons_of_mem _ hk)

theorem dedupAux_filter_first (es : List Entry) : ∀ seen k, k ∉ seen →
    (dedupAux seen es).filter (fun e => decide (entryKey e = k)) =
      (es.find? (fun e => decide (entryKey e = k))).toList := by
  induction es with
  | nil => intro seen k _; simp [dedupAux]
  | cons e es ih =>
      intro seen k hk
      by_cases h : entryKey e ∈ seen
      · have hne : ¬ entryKey e = k := fun heq => hk (heq ▸ h)
        rw [dedupAux, if_pos h, List.find?_cons_of_neg _ (by simpa using hne)]
        exact ih seen k hk
      · rw [dedupAux, if_neg h]
        by_cases heq : entryKey e = k
        · rw [List.filter_cons_of_pos (by simpa using heq),
            List.find?_cons_of_pos _ (by simpa using heq)]
          rw [dedupAux_filter_seen es _ k (heq ▸ List.mem_cons_self _ _)]
          rfl
        · rw [List.filter_cons_of_neg (by simpa using heq),
            List.find?_cons_of_neg _ (by simpa using heq)]
          refine ih _ k ?_
          intro hmem
          rcases List.mem_cons.mp hmem with h1 | h1
          · exact heq h1.symm
          · exact hk h1

theorem dedupAux_keys_nodup (es : List Entry) : ∀ seen,
    ((dedupAux seen es).map entryKey).Nodup ∧
      ∀ k ∈ (dedupAux seen es).map entryKey, k ∉ seen := by
  induction es with
  | nil => intro seen; simp [dedupAux]
  | cons e es ih =>
      intro seen
      by_cases h : entryKey e ∈ seen
      · rw [dedupAux, if_pos h]
        exact ih seen
      · obtain ⟨ihn, ihs⟩ := ih (entryKey e :: seen)
        rw [dedupAux, if_neg h]
        constructor
        · rw [List.map_cons, List.nodup_cons]
          exact ⟨fun hmem => (ihs _ hmem) (List.mem_cons_self _ _), ihn⟩
        · intro k hk
          rw [List.map_cons, List.mem_cons] at hk
          rcases hk with rfl | hk
          · exact h
          · exact fun hks => (ihs k hk) (List.mem_cons_of_mem _ hks)

theorem dedupAux_eq_self (es : List Entry) : ∀ seen, ((es.map entryKey).Nodup) →
    (∀ e ∈ es, entryKey e ∉ seen) → dedupAux seen es = es := by
  induction es with
  | nil => intro seen _ _; rfl
  | cons e es ih =>
      intro seen hnd hdisj
      have h : entryKey e ∉ seen := hdisj e (List.mem_cons_self _ _)
      rw [dedupAux, if_neg h]
      rw [List.map_cons, List.nodup_cons] at hnd
      congr 1
      refine ih _ hnd.2 ?_
      intro x hx hmem
      rcases List.mem_cons.mp hmem with h1 | h1
      · exact hnd.1 (h1 ▸ List.mem_map_of_mem entryKey hx)
      · exact hdisj x (List.mem_cons_of_mem _ hx) h1

theorem dedupKeepFirst_idem (es : List Entry) :
    dedupKeepFirst (dedupKeepFirst es) = dedupKeepFirst es := by
  refine dedupAux_eq_self _ [] ?_ ?_
  · exact (dedupAux_keys_nodup es []).1
  · intro e _ hmem
    exact absurd hmem (List.not_mem_nil _)

/-- C5: for every batch — the empty one included, on which the pandas call
is an early-returning no-op — deduplication keeps exactly the first
occurrence of each (Title, Link) key: all later entries sharing the key
collapse onto it, the relative order of the kept entries is preserved (the
result is a sublist of the input), the kept keys are pairwise distinct, and
deduplicating again changes nothing. -/
theorem remove_duplicates_spec (entries : List Entry) :
    (remove_duplicates entries).records = dedupKeepFirst entries ∧
    (dedupKeepFirst entries).Sublist entries ∧
    ((dedupKeepFirst entries).map entryKey).Nodup ∧
    (∀ k, (dedupKeepFirst entries).filter (fun e => decide (entryKey e = k)) =
      (entries.find? (fun e => decide (entryKey e = k))).toList) ∧
    dedupKeepFirst (dedupKeepFirst entries) = dedupKeepFirst entries :=
  ⟨rfl, dedupAux_sublist entries [], (dedupAux_keys_nodup entries []).1,
    fun k => dedupAux_filter_first entries [] k (List.not_mem_nil k),
    dedupKeepFirst_idem entries⟩

/-- Witness for C5: two entries with the identical key (Title "X", Link
"http://a") coming from different sources collapse to the first, and the
unaffected entry keeps its position. -/
theorem remove_duplicates_spec_applied :
    (remove_duplicates
        [mkEntry "X" "http://a" "BBC" "UK", mkEntry "X" "http://a" "CNN" "US",
         mkEntry "Y" "http://b" "BBC" "UK"]).records =
      dedupKeepFirst
        [mkEntry "X" "http://a" "BBC" "UK", mkEntry "X" "http://a" "CNN" "US",
         mkEntry "Y" "http://b" "BBC" "UK"] ∧
    dedupKeepFirst
        [mkEntry "X" "http://a" "BBC" "UK", mkEntry "X" "http://a" "CNN" "US",
         mkEntry "Y" "http://b" "BBC" "UK"] =
      [mkEntry "X" "http://a" "BBC" "UK", mkEntry "Y" "http://b" "BBC" "UK"] :=
  ⟨(remove_duplicates_spec _).1, by decide⟩

theorem getCount_incr (m : List (String × Nat)) (k c : String) :
    getCount (incrCount m k) c = getCount m c + (if k = c then 1 else 0) := by
  induction m with
  | nil => by_cases h : k = c <;> simp [incrCount, getCount, h]
  | cons p m ih =>
      obtain ⟨k1, n⟩ := p
      by_cases h1 : k1 = k
      · subst h1
        rw [incrCount, if_pos rfl]
        by_cases h2 : k1 = c <;> simp [getCount, h2]
      · rw [incrCount, if_neg h1]
        by_cases h2 : k1 = c
        · have hkc : ¬ k = c := fun hkc => h1 (h2.trans hkc.symm)
          simp [getCount, h2, hkc]
        · simp [getCount, h2, ih]

theorem getCount_foldl (es : List Entry) : ∀ (acc : List (String × Nat)) (c : String),
    getCount (es.foldl (fun a e => incrCount a e.Country) acc) c =
      getCount acc c + es.countP (fun e => decide (e.Country = c)) := by
  induction es with
  | nil => intro acc c; simp
  | cons e es ih =>
      intro acc c
      rw [List.foldl_cons, ih, getCount_incr, List.countP_cons]
      by_cases h : e.Country = c
      · simp [h]
        omega
      · simp [h]

theorem getCount_buildCounts (es : List Entry) (c : String) :
    getCount (buildCounts es) c = es.countP (fun e => decide (e.Country = c)) := by
  have h := getCount_foldl es [] c
  simpa [buildCounts, getCount] using h

theorem sumMapAdd {α : Type} (L : List α) (f g : α → Nat) :
    (L.map (fun a => f a + g a)).sum = (L.map f).sum + (L.map g).sum := by
  induction L with
  | nil => simp
  | cons a L ih => simp only [List.map_cons, List.sum_cons, ih]; omega

theorem sumIndicatorZero (L : List String) (x : String) (hx : x ∉ L) :
    (L.map (fun c => if x = c then 1 else 0)).sum = 0 := by
  induction L with
  | nil => simp
  | cons a L ih =>
      simp only [List.map_cons, List.sum_cons]
      have hxa : ¬ x = a := fun h => hx (by rw [h]; exact List.mem_cons_self a L)
      rw [if_neg hxa, ih (fun h => hx (List.mem_cons_of_mem a h))]

theorem sumIndicatorOne (L : List String) (x : String) (hnd : L.Nodup) (hx : x ∈ L) :
    (L.map (fun c => if x = c then 1 else 0)).sum = 1 := by
  induction L with
  | nil => cases hx
  | cons a L ih =>
      rw [List.nodup_cons] at hnd
      simp only [List.map_cons, List.sum_cons]
      rcases List.mem_cons.mp hx with rfl | hmem
      · rw [if_pos rfl, sumIndicatorZero L x hnd.1]
      · have hxa : ¬ x = a := fun h => hnd.1 (h ▸ hmem)
        rw [if_neg hxa, ih hnd.2 hmem]

theorem sumCountPOver (L l : List String) (hnd : L.Nodup) (hsub : ∀ x ∈ l, x ∈ L) :
    (L.map (fun c => l.countP (fun x => decide (x = c)))).sum = l.length := by
  induction l with
  | nil => simp
  | cons x t ih =>
      have hx : x ∈ L := hsub x (List.mem_cons_self x t)
      have hr : ∀ y ∈ t, y ∈ L := fun y hy => hsub y (List.mem_cons_of_mem x hy)
      have hmap : ∀ c ∈ L, (x :: t).countP (fun z => decide (z = c)) =
          t.countP (fun z => decide (z = c)) + (if x = c then 1 else 0) := by
        intro c _
        rw [List.countP_cons]
        by_cases h : x = c <;> simp [h]
      rw [List.map_congr_left hmap, sumMapAdd, ih hr, sumIndicatorOne L x hnd hx,
        List.length_cons]

/-- C6: the per-country aggregate counts are computed strictly from the
deduplicated batch (they equal the batch's own per-country occurrence
counts), and their sum over all countries occurring in the batch equals the
number of records in the deduplicated batch. -/
theorem aggregate_counts_sum_eq_batch_size (raw : List Entry) :
    (∀ c, getCount (buildCounts (dedupKeepFirst raw)) c =
      (dedupKeepFirst raw).countP (fun e => decide (e.Country = c))) ∧
    (((dedupKeepFirst raw).map (fun e => e.Country)).dedup.map
      (fun c => getCount (buildCounts (dedupKeepFirst raw)) c)).sum =
      (dedupKeepFirst raw).length := by
  refine ⟨fun c => getCount_buildCounts _ c, ?_⟩
  have h1 : ∀ c ∈ ((dedupKeepFirst raw).map (fun e => e.Country)).dedup,
      getCount (buildCounts (dedupKeepFirst raw)) c =
        ((dedupKeepFirst raw).map (fun e => e.Country)).countP (fun x => decide (x = c)) := by
    intro c _
    rw [getCount_buildCounts, List.countP_map]
    rfl
  rw [List.map_congr_left h1,
    sumCountPOver _ _ (List.nodup_dedup _) (fun x hx => List.mem_dedup.mpr hx)]
  simp

/-- C2 (code bug): when every feed source fails, `scrape_all_feeds` returns
an empty list; deduplication is a no-op on the empty frame and the store
completes (the count 0 is printed), but the frame built from zero records
has no columns, so `save_to_csv` raises a `KeyError` at `df['Country']` —
the CSV export step does not run without raising, and the run aborts
instead of completing normally end to end.  The 47 empty lists stand for
the 47 configured feed sources all failing. -/
theorem run_when_all_sources_fail :
    run (List.replicate 47 []) = Except.error "KeyError: Country" := rfl

theorem takeWhileLetters (run rest : List Char)
    (hall : ∀ ch ∈ run, isAsciiLetter ch = true) :
    (run ++ ',' :: rest).takeWhile isAsciiLetter = run ∧
    (run ++ ',' :: rest).dropWhile isAsciiLetter = ',' :: rest := by
  induction run with
  | nil =>
      constructor
      · rw [List.nil_append, List.takeWhile_cons_of_neg (by decide)]
      · rw [List.nil_append, List.dropWhile_cons_of_neg (by decide)]
  | cons c run ih =>
      have hc : isAsciiLetter c = true := hall c (List.mem_cons_self c run)
      have ih2 := ih (fun ch hch => hall ch (List.mem_cons_of_mem c hch))
      constructor
      · rw [List.cons_append, List.takeWhile_cons_of_pos hc, ih2.1]
      · rw [List.cons_append, List.dropWhile_cons_of_pos hc, ih2.2]

theorem stripWeekday_matches (run rest : List Char)
    (h2 : 2 ≤ run.length) (h9 : run.length ≤ 9)
    (hall : ∀ ch ∈ run, isAsciiLetter ch = true) :
    stripWeekday (run ++ ',' :: rest) = rest.dropWhile isPyWs := by
  have h := takeWhileLetters run rest hall
  unfold stripWeekday
  rw [h.2, h.1]
  exact if_pos ⟨rfl, h2, h9⟩

theorem isTzTriple_first_word {c1 c2 c3 : Char} (h : isTzTriple c1 c2 c3 = true) :
    isWordChar c1 = true := by
  rw [isTzTriple] at h
  simp only [Bool.and_eq_true, Bool.or_eq_true, decide_eq_true_eq] at h
  rcases h.1.1 with ((h1 | h1) | h1) | h1 <;> subst h1 <;> decide

theorem removeTzAux_cons_nonword (b : Char) (hb : isWordChar b = false) (cs : List Char) :
    removeTzAux false (b :: cs) = b :: removeTzAux false cs := by
  match cs with
  | [] => simp [removeTzAux, hb]
  | [c] => simp [removeTzAux, hb]
  | c2 :: c3 :: rest =>
      have htz : isTzTriple b c2 c3 = false := by
        cases h : isTzTriple b c2 c3
        · rfl
        · exact absurd (isTzTriple_first_word h) (by simp [hb])
      simp [removeTzAux, htz, hb]

theorem removeTzAux_head_match (c1 c2 c3 : Char) (after : List Char)
    (h : isTzTriple c1 c2 c3 = true) (ha : tzAfterOk after = true) :
    removeTzAux false (c1 :: c2 :: c3 :: after) = removeTzAux true after := by
  simp [removeTzAux, h, ha]

theorem tzToken_shape {tok : List Char} (h : tok ∈ tzTokens) :
    ∃ c1 c2 c3, tok = [c1, c2, c3] ∧ isTzTriple c1 c2 c3 = true := by
  simp only [tzTokens, List.mem_cons, List.not_mem_nil, or_false] at h
  rcases h with rfl | rfl | rfl | rfl | rfl | rfl | rfl | rfl <;>
    exact ⟨_, _, _, rfl, by decide⟩

theorem removeTz_standalone (before tok after : List Char)
    (htok : tok ∈ tzTokens) (hbefore : ∀ ch ∈ before, isWordChar ch = false)
    (ha : tzAfterOk after = true) :
    removeTz (before ++ (tok ++ after)) = before ++ removeTzAux true after := by
  obtain ⟨c1, c2, c3, rfl, htz⟩ := tzToken_shape htok
  induction before with
  | nil =>
      rw [List.nil_append, List.nil_append]
      exact removeTzAux_head_match c1 c2 c3 after htz ha
  | cons b bs ih =>
      have hb : isWordChar b = false := hbefore b (List.mem_cons_self b bs)
      rw [List.cons_append, removeTz, removeTzAux_cons_nonword b hb]
      have ih2 := ih (fun ch hch => hbefore ch (List.mem_cons_of_mem b hch))
      rw [removeTz] at ih2
      exact congrArg (fun l => b :: l) ih2

theorem pySplit_words (cs : List Char) : ∀ acc,
    (∀ ch ∈ acc, isPyWs ch = false) →
    ∀ w ∈ pySplitAux cs acc, w ≠ [] ∧ ∀ ch ∈ w, isPyWs ch = false := by
  induction cs with
  | nil =>
      intro acc hacc w hw
      simp only [pySplitAux] at hw
      by_cases h : acc.isEmpty
      · rw [if_pos h] at hw
        cases hw
      · rw [if_neg h] at hw
        rw [List.mem_singleton] at hw
        subst hw
        refine ⟨fun hrev => h ?_, fun ch hch => hacc ch (List.mem_reverse.mp hch)⟩
        rw [List.isEmpty_iff, ← List.reverse_eq_nil_iff, hrev]
  | cons c cs ih =>
      intro acc hacc w hw
      simp only [pySplitAux] at hw
      by_cases hws : isPyWs c = true
      · rw [if_pos hws] at hw
        by_cases hacc0 : acc.isEmpty
        · rw [if_pos hacc0] at hw
          exact ih [] (fun ch hch => absurd hch (List.not_mem_nil ch)) w hw
        · rw [if_neg hacc0] at hw
          rcases List.mem_cons.mp hw with rfl | hw2
          · refine ⟨fun hrev => hacc0 ?_, fun ch hch => hacc ch (List.mem_reverse.mp hch)⟩
            rw [List.isEmpty_iff, ← List.reverse_eq_nil_iff, hrev]
          · exact ih [] (fun ch hch => absurd hch (List.not_mem_nil ch)) w hw2
      · rw [if_neg hws] at hw
        refine ih (c :: acc) ?_ w hw
        intro ch hch
        rcases List.mem_cons.mp hch with rfl | h2
        · exact Bool.eq_false_iff.mpr hws
        · exact hacc ch h2

/-- C7: the cleaning step of the date normalizer.  (1) a leading token of
2–9 ASCII letters followed by a comma is removed together with the
whitespace after the comma; (2) each of the eight timezone abbreviations is
removed when it stands at a word boundary on both sides (the scan then
continues after the token); (3) the whitespace collapse produces only
non-empty, whitespace-free words, which the cleaner joins with single
spaces and trims, as the composition in (4) states for every non-empty
input; (5) if the cleaned result is empty the normalizer returns Unknown;
(6) a concrete input exercising all steps; (7) the empty string cleans to
`None`. -/
theorem clean_date_string_spec :
    (∀ run rest, 2 ≤ run.length → run.length ≤ 9 →
      (∀ ch ∈ run, isAsciiLetter ch = true) →
      stripWeekday (run ++ ',' :: rest) = rest.dropWhile isPyWs) ∧
    (∀ before tok after, tok ∈ tzTokens → (∀ ch ∈ before, isWordChar ch = false) →
      tzAfterOk after = true →
      removeTz (before ++ (tok ++ after)) = before ++ removeTzAux true after) ∧
    (∀ cs, ∀ w ∈ pySplit cs, w ≠ [] ∧ ∀ ch ∈ w, isPyWs ch = false) ∧
    (∀ s : String, s ≠ "" →
      clean_date_string s =
        some ⟨pyStrip (joinSpace (pySplit (removeTz (stripWeekday s.data))))⟩) ∧
    (∀ (dateutil : String → Option PyDatetime)
      (strptime : String → String → Option PyDatetime) (nowAware nowNaive : Int) s,
      clean_date_string s = some "" →
      calculate_duration dateutil strptime nowAware nowNaive s = "Unknown") ∧
    clean_date_string "Lun, 03  Jun 2024  PST " = some "03 Jun 2024" ∧
    clean_date_string "" = none := by
  refine ⟨stripWeekday_matches, removeTz_standalone, fun cs => pySplit_words cs []
    (fun ch hch => absurd hch (List.not_mem_nil ch)), ?_, ?_, by decide, rfl⟩
  · intro s hs
    rw [clean_date_string, if_neg hs]
  · intro dateutil strptime nowAware nowNaive s hc
    by_cases hs : s = ""
    · rw [calculate_duration, if_pos hs]
    · rw [calculate_duration, if_neg hs, hc]
      simp

/-- Witness for C7: the weekday strip, the timezone strip and the
empty-after-cleaning fallback at concrete inputs. -/
theorem clean_date_string_spec_applied :
    stripWeekday (['L', 'u', 'n'] ++ ',' :: [' ', '0', '3']) = [' ', '0', '3'].dropWhile isPyWs ∧
    removeTz ([' '] ++ (['P', 'S', 'T'] ++ [])) = [' '] ++ removeTzAux true [] ∧
    calculate_duration (fun _ => some ⟨0, false⟩) (fun _ _ => none) 0 0 " " = "Unknown" :=
  ⟨clean_date_string_spec.1 _ _ (by decide) (by decide) (by decide),
    clean_date_string_spec.2.1 _ _ _ (by decide) (by decide) (by decide),
    clean_date_string_spec.2.2.2.2.1 _ _ 0 0 " " (by decide)⟩

theorem textSegsAux_no_tag (cs : List Char) (hno : ∀ ch ∈ cs, ¬ ch = '<') : ∀ acc,
    textSegsAux false acc cs = [acc.reverse ++ cs] := by
  induction cs with
  | nil => intro acc; simp [textSegsAux]
  | cons c cs ih =>
      intro acc
      have hc : ¬ c = '<' := hno c (List.mem_cons_self c cs)
      simp only [textSegsAux, if_neg hc]
      rw [ih (fun ch hch => hno ch (List.mem_cons_of_mem c hch)) (c :: acc)]
      simp

theorem dropWhile_no_ws (cs : List Char) (h : ∀ ch ∈ cs, isPyWs ch = false) :
    cs.dropWhile isPyWs = cs := by
  cases cs with
  | nil => rfl
  | cons c cs =>
      rw [List.dropWhile_cons_of_neg (by simp [h c (List.mem_cons_self c cs)])]

theorem pyStrip_no_ws (cs : List Char) (h : ∀ ch ∈ cs, isPyWs ch = false) :
    pyStrip cs = cs := by
  rw [pyStrip, dropWhile_no_ws cs h,
    dropWhile_no_ws _ (fun ch hch => h ch (List.mem_reverse.mp hch)), List.reverse_reverse]

set_option maxHeartbeats 1000000 in
theorem unescapeFuel_no_amp : ∀ (n : Nat) (cs : List Char), (∀ ch ∈ cs, ¬ ch = '&') →
    unescapeFuel n cs = cs := by
  intro n
  induction n with
  | zero => intro cs _; rfl
  | succ n ih =>
      intro cs hno
      match cs with
      | [] => rfl
      | c :: rest =>
          have hc : ¬ c = '&' := hno c (List.mem_cons_self c rest)
          simp only [unescapeFuel, if_neg hc]
          rw [ih rest (fun ch hch => hno ch (List.mem_cons_of_mem c hch))]

/-- C8: `clean_summary` strips markup and decodes entities: the empty input
yields the empty output; the spec's example `<p>Breaking &amp; Live</p>`
cleans to `Breaking & Live`; whitespace between text segments collapses to
single spaces; and plain text containing no tag opener, no entity
ampersand and no whitespace passes through unchanged. -/
theorem clean_summary_spec :
    clean_summary "" = "" ∧
    clean_summary "<p>Breaking &amp; Live</p>" = "Breaking & Live" ∧
    clean_summary "<div> a </div><p>b&amp;c</p>" = "a b&c" ∧
    (∀ cs : List Char, (∀ ch ∈ cs, ¬ ch = '<' ∧ ¬ ch = '&' ∧ isPyWs ch = false) →
      clean_summary ⟨cs⟩ = ⟨cs⟩) := by
  refine ⟨rfl, by decide, by decide, ?_⟩
  intro cs h
  rw [clean_summary, getTextSepStrip]
  rw [show (String.mk cs).data = cs from rfl]
  rw [textSegsAux_no_tag cs (fun ch hch => (h ch hch).1) []]
  simp only [List.reverse_nil, List.nil_append, List.map_cons, List.map_nil]
  rw [pyStrip_no_ws cs (fun ch hch => (h ch hch).2.2)]
  by_cases hcs : cs = []
  · subst hcs; rfl
  · have hne : (cs.isEmpty : Bool) = false := by
      cases cs
      · exact absurd rfl hcs
      · rfl
    simp only [List.filter, hne, Bool.not_false]
    rw [joinSpace]
    simp only [List.intercalate, List.intersperse_single, List.flatten_cons,
      List.flatten_nil, List.append_nil]
    rw [unescape, unescapeFuel_no_amp _ cs (fun ch hch => (h ch hch).2.1)]

/-- Witness for C8: plain text without markup passes through
`clean_summary` unchanged. -/
theorem clean_summary_spec_applied : clean_summary "abc" = "abc" :=
  clean_summary_spec.2.2.2 ['a', 'b', 'c'] (by decide)

/-- Witness for C1 at a garbage input: the result is one of the seven
labels, and the empty input maps to Unknown. -/
theorem calculate_duration_total_applied :
    calculate_duration (fun _ => none) (fun _ _ => none) 0 0 "not a date" ∈
      ["Today", "This Week", "This Month", "1 Year Ago", "2 Years Ago", "Older", "Unknown"] ∧
    calculate_duration (fun _ => none) (fun _ _ => none) 0 0 "" = "Unknown" :=
  calculate_duration_total (fun _ => none) (fun _ _ => none) 0 0 "not a date"

/-- Witness for C4: an item carrying only a title and an href link (no
summary, no published date) is kept. -/
theorem parse_item_requires_title_and_link_applied :
    (parse_item (fun _ => none) (fun _ _ => none) 0 0 (fun _ => none) ⟨"UK", "BBC", "u"⟩
      ⟨some "T", none, none, some ⟨some "http://a", ""⟩⟩).isSome = true :=
  (parse_item_requires_title_and_link (fun _ => none) (fun _ _ => none) 0 0 (fun _ => none)
    ⟨"UK", "BBC", "u"⟩ ⟨some "T", none, none, some ⟨some "http://a", ""⟩⟩).2.2

/-- Witness for C6 on a concrete batch with a duplicate and two countries. -/
theorem aggregate_counts_sum_eq_batch_size_applied :
    (((dedupKeepFirst [mkEntry "X" "http://a" "BBC" "UK", mkEntry "X" "http://a" "CNN" "US",
        mkEntry "Y" "http://b" "BBC" "UK"]).map (fun e => e.Country)).dedup.map
      (fun c => getCount (buildCounts (dedupKeepFirst
        [mkEntry "X" "http://a" "BBC" "UK", mkEntry "X" "http://a" "CNN" "US",
         mkEntry "Y" "http://b" "BBC" "UK"])) c)).sum =
      (dedupKeepFirst [mkEntry "X" "http://a" "BBC" "UK", mkEntry "X" "http://a" "CNN" "US",
        mkEntry "Y" "http://b" "BBC" "UK"]).length :=
  (aggregate_counts_sum_eq_batch_size
    [mkEntry "X" "http://a" "BBC" "UK", mkEntry "X" "http://a" "CNN" "US",
     mkEntry "Y" "http://b" "BBC" "UK"]).2

end NewsFeed
